import Mathlib

/-!
# Verification of the terminal markdown editor shell (`src/editor.ts`)

Shallow embedding of the editor's state and operations. A JavaScript string
is modelled as `List Char`; `String.prototype.split('\n')` and
`Array.prototype.join('\n')` are modelled by `splitOnNl` / `joinNl` below,
which reproduce their semantics on every input (in particular
`split` of the empty string yields `[""]`, and trailing newlines yield a
trailing empty segment).

The external `@compilr-dev/editor-core` collaborator (command registry,
parser, executor, search) is reached only through a narrow call interface;
its responses are passed into the operations as explicit oracle arguments
(`parseOk`, `result`, `allCommands`, `searchResult`), so theorems quantify
over every possible collaborator behaviour. File-system reads and writes are
likewise passed in (`fileOnDisk`, `writeOk`).
-/

set_option autoImplicit false

/-- A JavaScript string, modelled as its list of characters. -/
abbrev Str := List Char

/-- `s.split('\n')` of JavaScript: split into segments at every `'\n'`.
Always returns at least one segment; `splitOnNl [] = [[]]`. -/
def splitOnNl : Str → List Str
  | [] => [[]]
  | c :: cs =>
    let r := splitOnNl cs
    if c = '\n' then [] :: r
    else (c :: r.headD []) :: r.tail

/-- `lines.join('\n')` of JavaScript: interleave a newline between segments. -/
def joinNl : List Str → Str
  | [] => []
  | [l] => l
  | l :: ls => l ++ '\n' :: joinNl ls

theorem splitOnNl_ne_nil (s : Str) : splitOnNl s ≠ [] := by
  cases s with
  | nil => simp [splitOnNl]
  | cons c cs =>
    simp only [splitOnNl]
    split <;> simp

theorem joinNl_cons_cons (a b : Str) (ls : List Str) :
    joinNl (a :: b :: ls) = a ++ '\n' :: joinNl (b :: ls) := rfl

theorem joinNl_splitOnNl (s : Str) : joinNl (splitOnNl s) = s := by
  induction s with
  | nil => rfl
  | cons c cs ih =>
    simp only [splitOnNl]
    cases h : splitOnNl cs with
    | nil => exact absurd h (splitOnNl_ne_nil cs)
    | cons l ls =>
      rw [h] at ih
      by_cases hc : c = '\n'
      · subst hc
        rw [if_pos rfl, joinNl_cons_cons, List.nil_append, ih]
      · rw [if_neg hc]
        cases ls with
        | nil =>
          simp only [List.headD_cons, List.tail_cons]
          simpa [joinNl] using congrArg (c :: ·) ih
        | cons x xs =>
          simp only [List.headD_cons, List.tail_cons, joinNl_cons_cons] at ih ⊢
          rw [List.cons_append, ih]

theorem length_splitOnNl (s : Str) :
    (splitOnNl s).length = s.count '\n' + 1 := by
  induction s with
  | nil => rfl
  | cons c cs ih =>
    simp only [splitOnNl]
    by_cases hc : c = '\n'
    · subst hc
      simp [List.count_cons, ih]
    · rw [if_neg hc]
      cases h : splitOnNl cs with
      | nil => exact absurd h (splitOnNl_ne_nil cs)
      | cons l ls =>
        rw [h] at ih
        simp only [List.length_cons] at ih
        simp [List.count_cons, hc, ih]

theorem splitOnNl_no_newline (s : Str) (h : '\n' ∉ s) : splitOnNl s = [s] := by
  induction s with
  | nil => rfl
  | cons c cs ih =>
    simp only [List.mem_cons, not_or] at h
    have hc : ¬ c = '\n' := fun hca => h.1 hca.symm
    simp only [splitOnNl]
    rw [ih h.2, if_neg hc]
    rfl

/-- A slash command from the external registry; the editor itself only ever
reads its `name`. -/
structure SlashCommand where
  name : Str
deriving DecidableEq, Repr

/-- `EditorState` of `src/editor.ts`. -/
structure EditorState where
  lines : List Str
  cursorLine : Nat
  cursorColumn : Nat
  scrollOffset : Nat
  isDirty : Bool
  filePath : Option Str
  theme : Str
  isCommandPaletteOpen : Bool
  commandInput : Str
  filteredCommands : List SlashCommand
  selectedCommandIndex : Nat
deriving DecidableEq, Repr

/-- The `Editor` constructor. `optContent`, `optFilePath`, `optTheme` are the
fields of `EditorOptions` (`undefined` = `none`); `fileOnDisk` is the file
system oracle: `some fc` when `existsSync(optFilePath)` holds and the file
reads as `fc`, `none` otherwise. `options.content || ''` and
`options.theme || 'default'` treat the empty string as falsy. -/
def mkEditor (optContent optFilePath optTheme fileOnDisk : Option Str) :
    EditorState :=
  let content0 := match optContent with
    | some c => if c = [] then [] else c
    | none => []
  let content := match optFilePath, fileOnDisk with
    | some _, some fc => fc
    | _, _ => content0
  { lines := splitOnNl content
    cursorLine := 0
    cursorColumn := 0
    scrollOffset := 0
    isDirty := false
    filePath := optFilePath
    theme := match optTheme with
      | some t => if t = [] then String.toList "default" else t
      | none => String.toList "default"
    isCommandPaletteOpen := false
    commandInput := []
    filteredCommands := []
    selectedCommandIndex := 0 }

/-- `getContent()`: join the line buffer with newlines. -/
def getContent (s : EditorState) : Str :=
  joinNl s.lines

/-- `setContent(content)`: replace the line buffer, mark dirty. The cursor is
left untouched. -/
def setContent (content : Str) (s : EditorState) : EditorState :=
  { s with lines := splitOnNl content, isDirty := true }

/-- `lines.splice(i, 0, x)` of JavaScript: insert `x` at index `i`
(appending at the end when `i ≥ lines.length`). -/
def spliceIns (l : List Str) (i : Nat) (x : Str) : List Str :=
  l.take i ++ [x] ++ l.drop i

/-- The middle-lines loop of `insertText`:
`for (i = 1; i < insertLines.length - 1; i++) lines.splice(cursorLine + i, 0, insertLines[i])`.
Its iterations visit the middle segments `insertLines[1 .. length-2]` in
order, splicing each at the next position; here `mids` is that slice and
`pos` starts at `cursorLine + 1`. -/
def spliceMiddles : Nat → List Str → List Str → List Str
  | _, [], lines => lines
  | pos, m :: ms, lines => spliceMiddles (pos + 1) ms (spliceIns lines pos m)

/-- `insertText(text)` of `src/editor.ts` (lines 113–149). -/
def insertText (text : Str) (s : EditorState) : EditorState :=
  let currentLine := s.lines.getD s.cursorLine []
  let insertLines := splitOnNl text
  if insertLines.length = 1 then
    { s with
      lines := s.lines.set s.cursorLine
        (currentLine.take s.cursorColumn ++ text ++
          currentLine.drop s.cursorColumn)
      cursorColumn := s.cursorColumn + text.length
      isDirty := true }
  else
    let beforeCursor := currentLine.take s.cursorColumn
    let afterCursor := currentLine.drop s.cursorColumn
    let lines1 := s.lines.set s.cursorLine (beforeCursor ++ insertLines.headD [])
    let lines2 := spliceMiddles (s.cursorLine + 1) (insertLines.drop 1).dropLast lines1
    let lastLineIndex := s.cursorLine + insertLines.length - 1
    let lastInsertLine := insertLines.getLastD []
    let lines3 := spliceIns lines2 lastLineIndex (lastInsertLine ++ afterCursor)
    { s with
      lines := lines3
      cursorLine := lastLineIndex
      cursorColumn := lastInsertLine.length
      isDirty := true }

/-- `save()`. `writeOk` is the file-system oracle: whether `writeFileSync`
succeeds (`false` = it throws, caught by the `try`/`catch`). Returns the
boolean result paired with the resulting state. -/
def save (writeOk : Bool) (s : EditorState) : Bool × EditorState :=
  match s.filePath with
  | none => (false, s)
  | some _ =>
    if writeOk then (true, { s with isDirty := false })
    else (false, s)

/-- `openCommandPalette()`. `allCommands` is the external registry's
`getAllCommands()` response. -/
def openCommandPalette (allCommands : List SlashCommand) (s : EditorState) :
    EditorState :=
  { s with
    isCommandPaletteOpen := true
    commandInput := []
    filteredCommands := allCommands
    selectedCommandIndex := 0 }

/-- `closeCommandPalette()`. -/
def closeCommandPalette (s : EditorState) : EditorState :=
  { s with
    isCommandPaletteOpen := false
    commandInput := []
    filteredCommands := []
    selectedCommandIndex := 0 }

/-- `filterCommands(input)`. `searchResult` is the external
`searchCommands(input)` response, `allCommands` the `getAllCommands()`
response; the code queries the former only when `input` is truthy
(non-empty). -/
def filterCommands (searchResult allCommands : List SlashCommand)
    (input : Str) (s : EditorState) : EditorState :=
  { s with
    commandInput := input
    filteredCommands := if input = [] then allCommands else searchResult
    selectedCommandIndex := 0 }

/-- `executeSelectedCommand()`. When no command sits at
`selectedCommandIndex` the method returns early, before
`closeCommandPalette` is reached. Otherwise it rebuilds a command line from
the selected command's name and the palette input, parses it and runs it
through the external collaborator: `parseOk` is whether `parseCommandInput`
returned non-null, and `result` is the string the external `executeCommand`
resolves to, which is inserted at the cursor. -/
def executeSelectedCommand (parseOk : Bool) (result : Str)
    (s : EditorState) : EditorState :=
  match s.filteredCommands[s.selectedCommandIndex]? with
  | none => s
  | some _ =>
    let s1 := if parseOk then insertText result s else s
    closeCommandPalette s1

/-- `isDirty()`. -/
def Editor.isDirty (s : EditorState) : Bool :=
  s.isDirty

/-- The documented cursor invariant:
`0 <= line < lines.length` and `0 <= column <= lines[line].length`
(lower bounds are implicit in `Nat`). -/
def cursorInvariant (s : EditorState) : Prop :=
  s.cursorLine < s.lines.length ∧
    s.cursorColumn ≤ (s.lines.getD s.cursorLine []).length

instance (s : EditorState) : Decidable (cursorInvariant s) := by
  unfold cursorInvariant; infer_instance

/-! ## Helper lemmas -/

theorem length_spliceIns (l : List Str) (i : Nat) (x : Str) :
    (spliceIns l i x).length = l.length + 1 := by
  simp only [spliceIns, List.length_append, List.length_take, List.length_drop,
    List.length_cons, List.length_nil]
  omega

theorem length_spliceMiddles (pos : Nat) (ms lines : List Str) :
    (spliceMiddles pos ms lines).length = lines.length + ms.length := by
  induction ms generalizing pos lines with
  | nil => rfl
  | cons m ms ih =>
    rw [spliceMiddles, ih, length_spliceIns, List.length_cons]
    omega

theorem getD_append_right_len {α : Type} (A B : List α) (d : α) :
    (A ++ B).getD A.length d = B.getD 0 d := by
  induction A with
  | nil => rfl
  | cons a as ih => simpa using ih

theorem getD_spliceIns_self (l : List Str) (i : Nat) (x : Str)
    (h : i ≤ l.length) : (spliceIns l i x).getD i [] = x := by
  have htake : (l.take i).length = i := by
    rw [List.length_take]; omega
  have hr := getD_append_right_len (l.take i) ([x] ++ l.drop i) ([] : Str)
  rw [htake] at hr
  rw [spliceIns, List.append_assoc, hr]
  rfl

theorem getD_set_self {α : Type} (l : List α) (i : Nat) (x d : α)
    (h : i < l.length) : (l.set i x).getD i d = x := by
  induction l generalizing i with
  | nil => simp at h
  | cons a as ih =>
    cases i with
    | zero => rfl
    | succ n => exact ih n (by simpa using h)

/-- Unfolding `insertText` in the single-line branch. -/
theorem insertText_single (text : Str) (s : EditorState)
    (h : (splitOnNl text).length = 1) :
    insertText text s =
      { s with
        lines := s.lines.set s.cursorLine
          ((s.lines.getD s.cursorLine []).take s.cursorColumn ++ text ++
            (s.lines.getD s.cursorLine []).drop s.cursorColumn)
        cursorColumn := s.cursorColumn + text.length
        isDirty := true } := by
  simp only [insertText]
  rw [if_pos h]

/-- Unfolding `insertText` in the multi-line branch. -/
theorem insertText_multi (text : Str) (s : EditorState)
    (h : (splitOnNl text).length ≠ 1) :
    insertText text s =
      { s with
        lines := spliceIns
          (spliceMiddles (s.cursorLine + 1) ((splitOnNl text).drop 1).dropLast
            (s.lines.set s.cursorLine
              ((s.lines.getD s.cursorLine []).take s.cursorColumn ++
                (splitOnNl text).headD [])))
          (s.cursorLine + (splitOnNl text).length - 1)
          ((splitOnNl text).getLastD [] ++
            (s.lines.getD s.cursorLine []).drop s.cursorColumn)
        cursorLine := s.cursorLine + (splitOnNl text).length - 1
        cursorColumn := ((splitOnNl text).getLastD []).length
        isDirty := true } := by
  simp only [insertText]
  rw [if_neg h]

theorem insertText_isDirty (text : Str) (s : EditorState) :
    (insertText text s).isDirty = true := by
  by_cases h : (splitOnNl text).length = 1
  · rw [insertText_single text s h]
  · rw [insertText_multi text s h]

theorem one_le_length_splitOnNl (text : Str) :
    1 ≤ (splitOnNl text).length :=
  List.length_pos.mpr (splitOnNl_ne_nil text)

/-- Line count after a multi-line `insertText`: the middle loop adds
`n - 2` lines and the final splice one more, where `n` is the number of
segments. -/
theorem length_lines_insertText_multi (text : Str) (s : EditorState)
    (h : (splitOnNl text).length ≠ 1) :
    (insertText text s).lines.length =
      s.lines.length + ((splitOnNl text).length - 1) := by
  have h1 := one_le_length_splitOnNl text
  rw [insertText_multi text s h]
  simp only [length_spliceIns, length_spliceMiddles, List.length_set,
    List.length_dropLast, List.length_drop]
  omega

/-- `cursorInvariant` is preserved by `insertText`. -/
theorem cursorInvariant_insertText (text : Str) (s : EditorState)
    (h : cursorInvariant s) : cursorInvariant (insertText text s) := by
  obtain ⟨hline, hcol⟩ := h
  by_cases h1 : (splitOnNl text).length = 1
  · rw [insertText_single text s h1]
    constructor
    · simpa only [List.length_set] using hline
    · show s.cursorColumn + text.length ≤ _
      rw [getD_set_self _ _ _ _ (by simpa only [List.length_set] using hline)]
      simp only [List.length_append, List.length_take, List.length_drop]
      omega
  · have h2 := one_le_length_splitOnNl text
    rw [insertText_multi text s h1]
    have hmidlen :
        (spliceMiddles (s.cursorLine + 1) ((splitOnNl text).drop 1).dropLast
          (s.lines.set s.cursorLine
            ((s.lines.getD s.cursorLine []).take s.cursorColumn ++
              (splitOnNl text).headD []))).length =
        s.lines.length + ((splitOnNl text).length - 2) := by
      simp only [length_spliceMiddles, List.length_set, List.length_dropLast,
        List.length_drop]
      omega
    constructor
    · show s.cursorLine + (splitOnNl text).length - 1 <
        (spliceIns _ _ _).length
      rw [length_spliceIns, hmidlen]
      omega
    · show ((splitOnNl text).getLastD []).length ≤ _
      rw [getD_spliceIns_self _ _ _ (by rw [hmidlen]; omega)]
      simp only [List.length_append]
      omega


/-- Frame transfer for the cursor invariant: it only looks at the line
buffer and the cursor. -/
theorem cursorInvariant_of_eq (s t : EditorState) (hl : t.lines = s.lines)
    (hcl : t.cursorLine = s.cursorLine)
    (hcc : t.cursorColumn = s.cursorColumn)
    (h : cursorInvariant s) : cursorInvariant t := by
  unfold cursorInvariant at h ⊢
  rw [hl, hcl, hcc]
  exact h

/-! ## Concrete states for scenarios and witnesses -/

/-- A plain editor state, the base of the concrete scenarios below. -/
def baseState : EditorState :=
  { lines := [[]], cursorLine := 0, cursorColumn := 0, scrollOffset := 0,
    isDirty := false, filePath := none, theme := [],
    isCommandPaletteOpen := false, commandInput := [],
    filteredCommands := [], selectedCommandIndex := 0 }

/-! ## Claims -/

/-- The document `"a\nb"` (lines `["a", "b"]`) with the cursor at (0, 1). -/
def c1State : EditorState :=
  { baseState with lines := [['a'], ['b']], cursorColumn := 1 }

/-- C1 (counterexample): for the document `"a\nb"` with the cursor at
(0, 1), `insertText("X\nY")` does not yield the lines `["aX", "Yb"]`
claimed by the spec scenario: the suffix after the cursor on line 0 is
empty, so the last inserted segment becomes its own line `"Y"` and the
line `"b"` is left untouched. -/
theorem C1_counterexample :
    ¬ ((insertText ['X', '\n', 'Y'] c1State).lines =
          [['a', 'X'], ['Y', 'b']] ∧
        (insertText ['X', '\n', 'Y'] c1State).cursorLine = 1 ∧
        (insertText ['X', '\n', 'Y'] c1State).cursorColumn = 1) := by
  decide

/-- C1 (amended): for the document `"a\nb"` with the cursor at (0, 1),
`insertText("X\nY")` yields the lines `["aX", "Y", "b"]` and leaves the
cursor at line 1, column 1. -/
theorem C1_insertText_scenario :
    (insertText ['X', '\n', 'Y'] c1State).lines = [['a', 'X'], ['Y'], ['b']] ∧
    (insertText ['X', '\n', 'Y'] c1State).cursorLine = 1 ∧
    (insertText ['X', '\n', 'Y'] c1State).cursorColumn = 1 := by
  decide

/-- A one-command registry response for the C2 scenario. -/
def c2Commands : List SlashCommand := [⟨['t', 'a', 'b', 'l', 'e']⟩]

/-- Palette opened over `c2Commands`, then filtered with the query `"z"`
whose external search result is empty. -/
def c2State : EditorState :=
  filterCommands [] c2Commands ['z']
    (openCommandPalette c2Commands (mkEditor none none none none))

/-- C2 (counterexample): after opening the palette and filtering with a
query matching zero commands, the filtered list is empty and the selected
index is 0, yet `executeSelectedCommand` leaves the palette open: the
method returns early when no command is selected, before
`closeCommandPalette` is reached. -/
theorem C2_counterexample :
    c2State.isCommandPaletteOpen = true ∧
    c2State.filteredCommands = [] ∧
    c2State.selectedCommandIndex = 0 ∧
    (executeSelectedCommand true [] c2State).isCommandPaletteOpen = true := by
  decide

/-- C2 (amended): whenever a command is selected (the selected index is in
range of the filtered list), `executeSelectedCommand` closes the palette on
completion — `isCommandPaletteOpen` is false, the command input is empty,
the filtered list is empty and the selected index is 0 — regardless of
parse failure or of the executed command's result. When no command is
selected the call is a no-op that leaves the palette state, including the
open flag, unchanged. -/
theorem C2_executeSelectedCommand_closes (parseOk : Bool) (result : Str)
    (s : EditorState)
    (h : s.selectedCommandIndex < s.filteredCommands.length) :
    (executeSelectedCommand parseOk result s).isCommandPaletteOpen = false ∧
    (executeSelectedCommand parseOk result s).commandInput = [] ∧
    (executeSelectedCommand parseOk result s).filteredCommands = [] ∧
    (executeSelectedCommand parseOk result s).selectedCommandIndex = 0 := by
  have hg := List.getElem?_eq_getElem h
  refine ⟨?_, ?_, ?_, ?_⟩ <;>
    simp [executeSelectedCommand, hg, closeCommandPalette]

/-- C2 (witness): the amended theorem at a concrete in-range state. -/
theorem C2_executeSelectedCommand_closes_witness :
    c2Commands.length > 0 ∧
    ((executeSelectedCommand true ['x']
        (openCommandPalette c2Commands baseState)).isCommandPaletteOpen
          = false ∧
      (executeSelectedCommand true ['x']
        (openCommandPalette c2Commands baseState)).commandInput = [] ∧
      (executeSelectedCommand true ['x']
        (openCommandPalette c2Commands baseState)).filteredCommands = [] ∧
      (executeSelectedCommand true ['x']
        (openCommandPalette c2Commands baseState)).selectedCommandIndex
          = 0) :=
  ⟨by decide,
    C2_executeSelectedCommand_closes true ['x']
      (openCommandPalette c2Commands baseState) (by decide)⟩

/-- C3: when the selected command index is out of range of the filtered
command list (in particular when the list is empty),
`executeSelectedCommand` is a silent no-op: the entire editor state — in
particular the document lines, the cursor and the dirty flag — is left
unchanged. -/
theorem C3_executeSelectedCommand_out_of_range (parseOk : Bool)
    (result : Str) (s : EditorState)
    (h : s.filteredCommands.length ≤ s.selectedCommandIndex) :
    executeSelectedCommand parseOk result s = s := by
  have hg := List.getElem?_eq_none (l := s.filteredCommands) h
  simp [executeSelectedCommand, hg]

/-- C3 (witness): the no-op at a concrete state with an empty filtered
list. -/
theorem C3_executeSelectedCommand_out_of_range_witness :
    baseState.filteredCommands.length ≤ baseState.selectedCommandIndex ∧
    executeSelectedCommand true ['x'] baseState = baseState :=
  ⟨by decide,
    C3_executeSelectedCommand_out_of_range true ['x'] baseState (by decide)⟩

/-- A state whose cursor sits on the second line of a two-line buffer. -/
def c4State : EditorState :=
  { baseState with lines := [['a'], ['b']], cursorLine := 1 }

/-- C4 (counterexample): the cursor invariant held before, but
`setContent("x")` replaces the two-line buffer by a one-line buffer without
moving the cursor, leaving the cursor line (1) out of range. -/
theorem C4_counterexample :
    cursorInvariant c4State ∧ ¬ cursorInvariant (setContent ['x'] c4State) := by
  decide

/-- C4 (amended): provided the cursor invariant
`0 ≤ line < lines.length ∧ 0 ≤ column ≤ lines[line].length` held before, it
holds after `insertText`, `save`, `openCommandPalette`,
`closeCommandPalette`, `filterCommands` and `executeSelectedCommand`
complete, and the constructor establishes it; but `setContent` is excluded:
it replaces the line buffer without clamping the cursor and can leave the
cursor out of range. -/
theorem C4_cursorInvariant_preserved (s : EditorState) (text : Str)
    (writeOk parseOk : Bool) (result : Str)
    (allCommands searchResult : List SlashCommand) (input : Str)
    (oc ofp oth fd : Option Str)
    (h : cursorInvariant s) :
    cursorInvariant (insertText text s) ∧
    cursorInvariant (save writeOk s).2 ∧
    cursorInvariant (openCommandPalette allCommands s) ∧
    cursorInvariant (closeCommandPalette s) ∧
    cursorInvariant (filterCommands searchResult allCommands input s) ∧
    cursorInvariant (executeSelectedCommand parseOk result s) ∧
    cursorInvariant (mkEditor oc ofp oth fd) := by
  refine ⟨cursorInvariant_insertText text s h, ?_, ?_, ?_, ?_, ?_, ?_⟩
  · rcases hf : s.filePath with _ | p
    · rw [save, hf]
      exact h
    · rw [save, hf]
      by_cases hw : writeOk
    
      · rw [if_pos hw]
        exact cursorInvariant_of_eq s _ rfl rfl rfl h
      · rw [if_neg hw]
        exact h
  · exact cursorInvariant_of_eq s _ rfl rfl rfl h
  · exact cursorInvariant_of_eq s _ rfl rfl rfl h
  · exact cursorInvariant_of_eq s _ rfl rfl rfl h
  · cases hg : s.filteredCommands[s.selectedCommandIndex]? with
    | none =>
      rw [executeSelectedCommand, hg]
      exact h
    | some c =>
      rw [executeSelectedCommand, hg]
      by_cases hp : parseOk
      · rw [if_pos hp]
        exact cursorInvariant_of_eq _ _ rfl rfl rfl
          (cursorInvariant_insertText result s h)
      · rw [if_neg hp]
        exact cursorInvariant_of_eq s _ rfl rfl rfl h
  · unfold cursorInvariant
    cases ofp <;> cases fd <;>
      exact ⟨List.length_pos.mpr (splitOnNl_ne_nil _), Nat.zero_le _⟩

/-- C4 (witness): the amended preservation theorem at a concrete state. -/
theorem C4_cursorInvariant_preserved_witness :
    cursorInvariant baseState ∧
    (cursorInvariant (insertText ['x', '\n'] baseState) ∧
      cursorInvariant (save true baseState).2 ∧
      cursorInvariant (openCommandPalette [] baseState) ∧
      cursorInvariant (closeCommandPalette baseState) ∧
      cursorInvariant (filterCommands [] [] [] baseState) ∧
      cursorInvariant (executeSelectedCommand true [] baseState) ∧
      cursorInvariant (mkEditor none none none none)) :=
  ⟨by decide,
    C4_cursorInvariant_preserved baseState ['x', '\n'] true true [] [] [] []
      none none none none (by decide)⟩

/-- C5: for a valid cursor position, inserting a text containing exactly
`k ≥ 1` newline characters increases the buffer's total line count by
exactly `k`. -/
theorem C5_insertText_line_count (s : EditorState) (text : Str) (k : Nat)
    (hk : 1 ≤ k) (hcount : text.count '\n' = k)
    (hline : s.cursorLine < s.lines.length)
    (hcol : s.cursorColumn ≤ (s.lines.getD s.cursorLine []).length) :
    (insertText text s).lines.length = s.lines.length + k := by
  have hn : (splitOnNl text).length = k + 1 := by
    rw [length_splitOnNl, hcount]
  have hne : (splitOnNl text).length ≠ 1 := by omega
  rw [length_lines_insertText_multi text s hne, hn]
  omega

/-- C5 (witness): inserting `"a\nb"` (one newline) into a one-line buffer
adds exactly one line. -/
theorem C5_insertText_line_count_witness :
    1 ≤ 1 ∧ (['a', '\n', 'b'] : Str).count '\n' = 1 ∧
    baseState.cursorLine < baseState.lines.length ∧
    baseState.cursorColumn ≤
      (baseState.lines.getD baseState.cursorLine []).length ∧
    (insertText ['a', '\n', 'b'] baseState).lines.length =
      baseState.lines.length + 1 :=
  ⟨by decide, by decide, by decide, by decide,
    C5_insertText_line_count baseState ['a', '\n', 'b'] 1 (by decide)
      (by decide) (by decide) (by decide)⟩

/-- C6: inserting a text with no newline increases the cursor line's length
by exactly the inserted length, advances the cursor column by the same
amount, keeps the cursor line index, and leaves every other line `j` of the
document unchanged. -/
theorem C6_insertText_no_newline (s : EditorState) (text : Str) (j : Nat)
    (hnl : '\n' ∉ text)
    (hline : s.cursorLine < s.lines.length)
    (hcol : s.cursorColumn ≤ (s.lines.getD s.cursorLine []).length)
    (hj : j ≠ s.cursorLine) :
    ((insertText text s).lines.getD s.cursorLine []).length =
      (s.lines.getD s.cursorLine []).length + text.length ∧
    (insertText text s).cursorColumn = s.cursorColumn + text.length ∧
    (insertText text s).cursorLine = s.cursorLine ∧
    (insertText text s).lines[j]? = s.lines[j]? := by
  have h1 : (splitOnNl text).length = 1 := by
    rw [splitOnNl_no_newline text hnl]
    rfl
  rw [insertText_single text s h1]
  refine ⟨?_, rfl, rfl, ?_⟩
  · show ((s.lines.set s.cursorLine _).getD s.cursorLine []).length = _
    rw [getD_set_self _ _ _ _ hline]
    simp only [List.length_append, List.length_take, List.length_drop]
    omega
  · exact List.getElem?_set_ne (fun he => hj he.symm)

/-- C6 (witness): inserting `"hi"` into the one-line buffer at (0, 0). -/
theorem C6_insertText_no_newline_witness :
    '\n' ∉ (['h', 'i'] : Str) ∧
    baseState.cursorLine < baseState.lines.length ∧
    baseState.cursorColumn ≤
      (baseState.lines.getD baseState.cursorLine []).length ∧
    (1 : Nat) ≠ baseState.cursorLine ∧
    (((insertText ['h', 'i'] baseState).lines.getD baseState.cursorLine
        []).length =
      (baseState.lines.getD baseState.cursorLine []).length + 2 ∧
    (insertText ['h', 'i'] baseState).cursorColumn =
      baseState.cursorColumn + 2 ∧
    (insertText ['h', 'i'] baseState).cursorLine = baseState.cursorLine ∧
    (insertText ['h', 'i'] baseState).lines[1]? = baseState.lines[1]?) :=
  ⟨by decide, by decide, by decide, by decide,
    C6_insertText_no_newline baseState ['h', 'i'] 1 (by decide) (by decide)
      (by decide) (by decide)⟩

/-- C7: for every string `x`, `setContent(x)` followed by `getContent()`
returns exactly `x` — including the empty string and strings with leading
or trailing newlines, since splitting on newlines and re-joining with
newlines are mutually inverse. -/
theorem C7_setContent_getContent_roundtrip (x : Str) (s : EditorState) :
    getContent (setContent x s) = x := by
  simp only [getContent, setContent]
  exact joinNl_splitOnNl x

/-- C8: when no file path is bound, `save()` returns failure and leaves the
whole editor state — in particular the dirty flag — unchanged. -/
theorem C8_save_no_path (writeOk : Bool) (s : EditorState)
    (h : s.filePath = none) :
    save writeOk s = (false, s) := by
  rw [save, h]

/-- C8 (witness): saving the pathless base state fails and is a no-op. -/
theorem C8_save_no_path_witness :
    baseState.filePath = none ∧ save true baseState = (false, baseState) :=
  ⟨rfl, C8_save_no_path true baseState rfl⟩

/-- C9: after a successful `save()` the dirty flag is false, and a
subsequent `insertText` — here with an arbitrary text, including the no-op
empty string — sets it back to true. -/
theorem C9_save_then_insert_dirty (writeOk : Bool) (s : EditorState)
    (text : Str) (h : (save writeOk s).1 = true) :
    (save writeOk s).2.isDirty = false ∧
    (insertText text (save writeOk s).2).isDirty = true := by
  refine ⟨?_, insertText_isDirty _ _⟩
  rcases hf : s.filePath with _ | p
  · rw [save, hf] at h
    exact absurd h (by simp)
  · rw [save, hf] at h ⊢
    by_cases hw : writeOk
    · rw [if_pos hw]
    · rw [if_neg hw] at h
      exact absurd h (by simp)

/-- A state with a bound file path, for the save witnesses. -/
def savedState : EditorState := { baseState with filePath := some ['f'] }

/-- C9 (witness): a successful save of `savedState` clears the dirty flag
and an empty-string insert sets it again. -/
theorem C9_save_then_insert_dirty_witness :
    (save true savedState).1 = true ∧
    ((save true savedState).2.isDirty = false ∧
      (insertText [] (save true savedState).2).isDirty = true) :=
  ⟨by decide, C9_save_then_insert_dirty true savedState [] (by decide)⟩

/-- C10: immediately after construction — from an existing file's content
(`fd` present) or from a literal content string — the editor is not dirty
and the cursor is at line 0, column 0. -/
theorem C10_initial_state (oc ofp oth fd : Option Str) :
    (mkEditor oc ofp oth fd).isDirty = false ∧
    (mkEditor oc ofp oth fd).cursorLine = 0 ∧
    (mkEditor oc ofp oth fd).cursorColumn = 0 :=
  ⟨rfl, rfl, rfl⟩
